import Mathlib

/-!
Verification of the two chat-bot variants (SadhanaAI daily-challenge bot and
KautilyaAI legal assistant).  The repository consists of a keyword classifier,
a POST request handler that assembles a Gemini chat history (two synthetic
priming turns plus user/assistant pairs from the transcript), a stream relay,
client-side stream reassembly, and rate-limit error handling.  Each component
is embedded below as an executable Lean function translated from the
TypeScript source, and the specification's claims are settled as theorems.
-/

/-- Model of JavaScript `String.prototype.toLowerCase` at the character level
(the source applies it to ASCII keyword lists and to free text; `Char.toLower`
lowercases exactly the ASCII range). -/
def jsToLowerCase (s : String) : String :=
  String.mk (s.data.map Char.toLower)

/-- Model of JavaScript `String.prototype.includes`: `pat` occurs contiguously
inside `s`. -/
def jsIncludes (s pat : String) : Bool :=
  decide (pat.data <:+: s.data)

/-- Keyword list of `isChallengeQuery` in `app/api/chat/route.ts`, verbatim. -/
def challengeKeywords : List String := [
  "challenge", "task", "goal", "habit", "routine", "activity", "productivity",
  "wellness", "fitness", "health", "exercise", "workout", "diet", "nutrition",
  "meditation", "mindfulness", "mental", "learning", "skill", "hobby", "project",
  "daily", "weekly", "monthly", "morning", "evening", "work", "personal",
  "creative", "art", "writing", "reading", "social", "career", "development",
  "growth", "self-improvement", "motivation", "discipline", "consistency",
  "focus", "time management", "stress", "anxiety", "sleep", "habit tracking",
  "goals", "targets", "milestones", "progress", "achievement",
  "productivity hacks", "lifehack", "journaling", "reflection", "vision", "planning",
  "goal setting", "tracking", "resilience", "grit", "inspiration", "checklist",
  "self-care", "affirmations", "clarity", "breathing", "routine building",
  "energy boost", "positivity", "clean eating", "hydration", "step count",
  "walking", "running", "stretching", "yoga", "bodyweight", "strength", "calmness",
  "balance", "mindset", "consumption", "detox", "routine design", "habit loop",
  "lifestyle", "commitment", "persistence", "accountability", "feedback",
  "goal review", "win", "micro-goals", "streak", "habit stacking", "keystone habit"]

/-- Keyword list of `isLegalQuestion` in the legal-bot route, verbatim. -/
def legalKeywords : List String := [
  "law", "legal", "right", "rights", "court", "judge", "attorney", "lawyer", "lawsuit",
  "contract", "agreement", "breach", "liability", "tort", "compensation", "damages",
  "crime", "criminal", "offense", "prosecution", "defendant", "plaintiff", "sue", "sued",
  "divorce", "custody", "property", "estate", "will", "testament", "inheritance",
  "tenant", "landlord", "lease", "eviction", "employment", "discrimination",
  "patent", "copyright", "trademark", "intellectual property", "settlement",
  "regulation", "statute", "legislation", "constitution", "jurisdiction",
  "insurance", "claim", "dispute", "arbitration", "mediation", "license",
  "debt", "bankruptcy", "tax", "immigration", "visa", "citizenship"]

/-- `isChallengeQuery` from `app/api/chat/route.ts`: lower-case the text and
test whether any (lower-cased) challenge keyword occurs as a substring. -/
def isChallengeQuery (text : String) : Bool :=
  let lowerText := jsToLowerCase text
  challengeKeywords.any fun keyword => jsIncludes lowerText (jsToLowerCase keyword)

/-- `isLegalQuestion` from the legal-bot route: lower-case the text and test
whether any (lower-cased) legal keyword occurs as a substring. -/
def isLegalQuestion (text : String) : Bool :=
  let lowerText := jsToLowerCase text
  legalKeywords.any fun keyword => jsIncludes lowerText (jsToLowerCase keyword)

/-- Every entry of the challenge keyword list is already lower case. -/
theorem challengeKeywords_lower_fixed :
    ∀ kw ∈ challengeKeywords, jsToLowerCase kw = kw := by decide

/-- Every entry of the legal keyword list is already lower case. -/
theorem legalKeywords_lower_fixed :
    ∀ kw ∈ legalKeywords, jsToLowerCase kw = kw := by decide

/-- C1: for every input string, `isChallengeQuery` (challenge bot) and
`isLegalQuestion` (legal bot) return `true` if and only if the lower-cased
text contains at least one entry of the respective fixed keyword list as a
substring.  Both classifiers are pure Lean functions of their input, so
determinism is inherent in the embedding. -/
theorem c1_classifier_iff_keyword_substring (text : String) :
    (isChallengeQuery text = true ↔
      ∃ kw ∈ challengeKeywords, kw.data <:+: (jsToLowerCase text).data)
    ∧ (isLegalQuestion text = true ↔
      ∃ kw ∈ legalKeywords, kw.data <:+: (jsToLowerCase text).data) := by
  constructor
  · simp only [isChallengeQuery, jsIncludes, List.any_eq_true, decide_eq_true_eq]
    constructor
    · rintro ⟨kw, hmem, hkw⟩
      rw [challengeKeywords_lower_fixed kw hmem] at hkw
      exact ⟨kw, hmem, hkw⟩
    · rintro ⟨kw, hmem, hkw⟩
      refine ⟨kw, hmem, ?_⟩
      rw [challengeKeywords_lower_fixed kw hmem]
      exact hkw
  · simp only [isLegalQuestion, jsIncludes, List.any_eq_true, decide_eq_true_eq]
    constructor
    · rintro ⟨kw, hmem, hkw⟩
      rw [legalKeywords_lower_fixed kw hmem] at hkw
      exact ⟨kw, hmem, hkw⟩
    · rintro ⟨kw, hmem, hkw⟩
      refine ⟨kw, hmem, ?_⟩
      rw [legalKeywords_lower_fixed kw hmem]
      exact hkw

example : isChallengeQuery "Give me a CHALLENGE" = true := by decide
example : isChallengeQuery "hello there" = false := by decide
example : isLegalQuestion "What are my rights as a tenant?" = true := by decide
example : isLegalQuestion "bake a cake" = false := by decide
example : jsToLowerCase "AbC" = "abc" := by decide

/-- The `ChatMessage` interface shared by both routes. -/
structure ChatMessage where
  id : String
  role : String
  content : String
deriving DecidableEq

/-- One entry of the Gemini chat history: `{ role, parts: [{ text }] }`; the
`parts` field is modelled as the list of its text payloads. -/
structure HistoryEntry where
  role : String
  parts : List String
deriving DecidableEq

/-- What the handler hands to the external model: the assembled `history`
given to `model.startChat` plus the text passed to `chat.sendMessageStream`. -/
structure ModelRequest where
  history : List HistoryEntry
  sendText : String
deriving DecidableEq

/-- Synthetic priming turns pushed before any real transcript turn: one `user`
acknowledgement request and one `model` turn carrying the system prompt. -/
def primingHistory (ack sys : String) : List HistoryEntry :=
  [HistoryEntry.mk "user" [ack], HistoryEntry.mk "model" [sys]]

/-- The most recent user message: the source computes
`[...messages].reverse().findIndex(msg => msg.role === "user")` (`none`
models the `-1` / thrown-error case) and indexes
`messages[messages.length - 1 - idx]`. -/
def lastUserMessage? (messages : List ChatMessage) : Option ChatMessage :=
  match messages.reverse.findIdx? (fun msg => msg.role == "user") with
  | none => none
  | some idx => messages[messages.length - 1 - idx]?

/-- The history entries built from prior turns: for each user message other
than the active query (in transcript order), a `user` entry, followed by a
`model` entry when the immediately following transcript message has the
`assistant` role. -/
def pairEntries (messages : List ChatMessage) (lastUserId : String) :
    List HistoryEntry :=
  (messages.filter fun msg => msg.role == "user" && msg.id != lastUserId).flatMap
    fun userMsg =>
      let userIndex := messages.findIdx fun m => m.id == userMsg.id
      HistoryEntry.mk "user" [userMsg.content] ::
        (match messages[userIndex + 1]? with
         | some next =>
             if next.role == "assistant" then [HistoryEntry.mk "model" [next.content]]
             else []
         | none => [])

/-- Ghost twin of `pairEntries` that tags every produced entry with the index
of the transcript message it was derived from (used to reason about
provenance; `pairEntries_eq_src` shows it projects to `pairEntries`). -/
def pairEntriesSrc (messages : List ChatMessage) (lastUserId : String) :
    List (HistoryEntry × Nat) :=
  (messages.filter fun msg => msg.role == "user" && msg.id != lastUserId).flatMap
    fun userMsg =>
      let userIndex := messages.findIdx fun m => m.id == userMsg.id
      (HistoryEntry.mk "user" [userMsg.content], userIndex) ::
        (match messages[userIndex + 1]? with
         | some next =>
             if next.role == "assistant" then
               [(HistoryEntry.mk "model" [next.content], userIndex + 1)]
             else []
         | none => [])

/-- The history-assembly and send phase of the `POST` handler, common to both
bot variants (they differ only in the `ack`/`sys` prompt strings): locate the
active query, build the priming history, append prior pairs when the
transcript has more than one message, and send the active query's content.
`none` models the thrown `"No user message found"` error. -/
def handleChat (ack sys : String) (messages : List ChatMessage) :
    Option ModelRequest :=
  match lastUserMessage? messages with
  | none => none
  | some lastUserMessage =>
      some (ModelRequest.mk
        (primingHistory ack sys ++
          (if messages.length > 1 then pairEntries messages lastUserMessage.id else []))
        lastUserMessage.content)

/-- Acknowledgement priming text of the challenge bot. -/
def sadhanaAckText : String :=
  "You are SadhanaAI, a daily challenge bot. Please acknowledge your role."

/-- `systemPromptText` of the challenge bot. -/
def sadhanaSystemPromptText : String :=
  "You are SadhanaAI, a daily challenge bot. You provide personalized challenges and tasks to help users improve productivity, wellness, learning, or skill development. Format your responses with clear, actionable challenges presented as context cards. For non-challenge questions, respond with: 'I'm a challenge bot focused on providing personalized daily tasks and challenges. I cannot answer questions outside this domain.'"

/-- Acknowledgement priming text of the legal bot. -/
def kautilyaAckText : String :=
  "You are KautilyaAI, an AI legal assistant. Please acknowledge your role."

/-- `systemPromptText` of the legal bot. -/
def kautilyaSystemPromptText : String :=
  "You are KautilyaAI, an AI legal assistant. Provide general legal information only, not specific advice. Always recommend consulting a qualified attorney for specific matters. For non-legal questions, respond with: 'I'm KautilyaAI, a legal advisor focused exclusively on providing general legal information. I cannot answer questions outside the legal domain.'"

/-- The challenge-bot instance of the history-assembly phase. -/
def handleChatChallenge : List ChatMessage → Option ModelRequest :=
  handleChat sadhanaAckText sadhanaSystemPromptText

example :
    lastUserMessage? [ChatMessage.mk "1" "assistant" "hi", ChatMessage.mk "2" "user" "q"]
      = some (ChatMessage.mk "2" "user" "q") := rfl

example :
    handleChat "a" "s" [ChatMessage.mk "1" "assistant" "hi", ChatMessage.mk "2" "user" "q"]
      = some (ModelRequest.mk (primingHistory "a" "s") "q") := rfl

example :
    handleChat "a" "s"
      [ChatMessage.mk "1" "user" "q1", ChatMessage.mk "2" "assistant" "r1",
       ChatMessage.mk "3" "user" "q2"]
      = some (ModelRequest.mk
          (primingHistory "a" "s" ++
            [HistoryEntry.mk "user" ["q1"], HistoryEntry.mk "model" ["r1"]]) "q2") := rfl

theorem findIdx?_start_succ {α : Type} (p : α → Bool) :
    ∀ (l : List α) (i : Nat), l.findIdx? p (i + 1) = (l.findIdx? p i).map (· + 1) := by
  intro l
  induction l with
  | nil => intro i; rfl
  | cons a l ih =>
      intro i
      by_cases h : p a = true
      · simp [List.findIdx?_cons, h]
      · simp only [List.findIdx?_cons, h, if_false, Bool.false_eq_true, if_neg]
        exact ih (i + 1)

theorem findIdxGet_eq_find? {α : Type} (p : α → Bool) :
    ∀ l : List α,
      (match l.findIdx? p with | some i => l[i]? | none => none) = l.find? p := by
  intro l
  induction l with
  | nil => rfl
  | cons a l ih =>
      by_cases h : p a = true
      · simp [List.findIdx?_cons, h, List.find?_cons_of_pos]
      · have hb : p a = false := by
          cases hpa : p a
          · rfl
          · exact absurd hpa h
        rw [List.find?_cons_of_neg _ (by simp [hb])]
        simp only [List.findIdx?_cons, hb, Bool.false_eq_true, if_neg, not_false_iff]
        rw [findIdx?_start_succ p l 0]
        rw [← ih]
        cases hfi : l.findIdx? p with
        | none => rfl
        | some j => simp [List.getElem?_cons_succ]

theorem findIdx?_lt_length {α : Type} {p : α → Bool} {l : List α} {i : Nat}
    (h : l.findIdx? p = some i) : i < l.length := by
  have hex : ∃ x ∈ l, p x = true := by
    by_contra hc
    push_neg at hc
    have : l.findIdx? p = none := by
      rw [List.findIdx?_eq_none_iff]
      intro x hx
      cases hpx : p x
      · rfl
      · exact absurd hpx (hc x hx)
    rw [this] at h
    exact Option.noConfusion h
  have hlt := List.findIdx_lt_length_of_exists hex
  have heq := List.findIdx_eq_findIdx? p l
  rw [h] at heq
  rwa [heq] at hlt

theorem lastUserMessage?_eq_find? (messages : List ChatMessage) :
    lastUserMessage? messages =
      messages.reverse.find? (fun m => m.role == "user") := by
  rw [← findIdxGet_eq_find?]
  unfold lastUserMessage?
  cases h : messages.reverse.findIdx? (fun m => m.role == "user") with
  | none => rfl
  | some idx =>
      have hlt : idx < messages.length := by
        have := findIdx?_lt_length h
        rwa [List.length_reverse] at this
      exact (List.getElem?_reverse hlt).symm

theorem lastUserMessage?_decomp {messages : List ChatMessage} {u : ChatMessage}
    (h : lastUserMessage? messages = some u) :
    ∃ pre suf, messages = pre ++ u :: suf ∧ u.role = "user" ∧
      ∀ m ∈ suf, m.role ≠ "user" := by
  rw [lastUserMessage?_eq_find?] at h
  rw [List.find?_eq_some] at h
  obtain ⟨hpu, as, bs, hrev, hall⟩ := h
  refine ⟨bs.reverse, as.reverse, ?_, by simpa using hpu, ?_⟩
  · have : messages.reverse.reverse = (as ++ u :: bs).reverse := by rw [hrev]
    rw [List.reverse_reverse] at this
    rw [this]
    simp [List.reverse_append]
  · intro m hm
    have hmas : m ∈ as := List.mem_reverse.mp hm
    have := hall m hmas
    simp only [Bool.not_eq_eq_eq_not, Bool.not_true, beq_eq_false_iff_ne] at this
    exact this

theorem flatMap_segment {α β : Type} {l : List α} {x : α} (f : α → List β)
    (hx : x ∈ l) (pre : List β) :
    f x <:+: pre ++ l.flatMap f := by
  obtain ⟨s, t, rfl⟩ := List.append_of_mem hx
  exact ⟨pre ++ s.flatMap f, t.flatMap f,
    by simp [List.flatMap_append, List.flatMap_cons, List.append_assoc]⟩

theorem findIdx_by_id :
    ∀ (l : List ChatMessage) (i : Nat) (u : ChatMessage),
      (l.map ChatMessage.id).Nodup → l[i]? = some u →
      l.findIdx (fun m => m.id == u.id) = i := by
  intro l
  induction l with
  | nil => intro i u _ h; simp at h
  | cons a l ih =>
      intro i u hnodup h
      cases i with
      | zero =>
          have : a = u := by simpa using h
          subst this
          simp [List.findIdx_cons]
      | succ j =>
          have hj : l[j]? = some u := by simpa using h
          have hmem : u ∈ l := by
            obtain ⟨hlt, he⟩ := List.getElem?_eq_some.mp hj
            exact he ▸ List.getElem_mem hlt
          rw [List.map_cons, List.nodup_cons] at hnodup
          have hne : (a.id == u.id) = false := by
            rw [beq_eq_false_iff_ne]
            intro hEq
            exact hnodup.1 (hEq ▸ List.mem_map_of_mem ChatMessage.id hmem)
          simp [List.findIdx_cons, hne, ih j u hnodup.2 hj]

theorem pairEntries_eq_src (messages : List ChatMessage) (lastUserId : String) :
    pairEntries messages lastUserId =
      (pairEntriesSrc messages lastUserId).map Prod.fst := by
  unfold pairEntries pairEntriesSrc
  rw [List.map_flatMap]
  apply List.flatMap_congr
  intro userMsg _
  cases h : messages[(messages.findIdx fun m => m.id == userMsg.id) + 1]? with
  | none => simp [h]
  | some next =>
      by_cases hr : (next.role == "assistant") = true
      · simp [h, hr]
      · simp [h, hr]

theorem pairEntries_parts_from_messages (messages : List ChatMessage)
    (lastUserId : String) :
    ∀ e ∈ pairEntries messages lastUserId, ∃ m ∈ messages, e.parts = [m.content] := by
  intro e he
  unfold pairEntries at he
  rw [List.mem_flatMap] at he
  obtain ⟨userMsg, hum, he⟩ := he
  have humm : userMsg ∈ messages := (List.mem_filter.mp hum).1
  rcases List.mem_cons.mp he with h1 | h2
  · exact ⟨userMsg, humm, by rw [h1]⟩
  · cases hg : messages[(messages.findIdx fun m => m.id == userMsg.id) + 1]? with
    | none => rw [hg] at h2; simp at h2
    | some next =>
        rw [hg] at h2
        by_cases hr : (next.role == "assistant") = true
        · have hnm : next ∈ messages := by
            obtain ⟨hlt, hev⟩ := List.getElem?_eq_some.mp hg
            exact hev ▸ List.getElem_mem hlt
          have heq : e = HistoryEntry.mk "model" [next.content] := by
            simpa [hr] using h2
          exact ⟨next, hnm, by rw [heq]⟩
        · simp [hr] at h2

theorem lastUserMessage?_isSome {messages : List ChatMessage}
    (h : ∃ m ∈ messages, m.role = "user") :
    ∃ u, lastUserMessage? messages = some u := by
  rw [lastUserMessage?_eq_find?]
  cases hf : messages.reverse.find? (fun m => m.role == "user") with
  | none =>
      rw [List.find?_eq_none] at hf
      obtain ⟨m, hm, hrole⟩ := h
      exact absurd (by simp [hrole]) (hf m (List.mem_reverse.mpr hm))
  | some u => exact ⟨u, rfl⟩

theorem handleChat_eq_of_lastUser {ack sys : String} {messages : List ChatMessage}
    {lu : ChatMessage} (hlu : lastUserMessage? messages = some lu) :
    handleChat ack sys messages =
      some (ModelRequest.mk
        (primingHistory ack sys ++
          (if messages.length > 1 then pairEntries messages lu.id else []))
        lu.content) := by
  unfold handleChat
  rw [hlu]

/-- Initial assistant greeting of the challenge bot (`page.tsx`). -/
def sadhanaGreeting : String :=
  "Hello, I'm SadhanaAI, your daily challenge bot. How can I help you today? I can suggest personalized daily challenges for productivity, wellness, learning, or skill development. Just let me know what type of challenges you're interested in!"

/-- C5: for every transcript the handler processes without error, the
assembled history begins with exactly the two synthetic priming entries (a
`user` acknowledgement turn, then a `model` turn carrying the persona
instruction), and everything after them is derived from real transcript
turns; for the transcript of just the initial assistant greeting plus one new
user message, the two priming entries are the entire history. -/
theorem c5_priming_history (ack sys : String) (messages : List ChatMessage)
    (req : ModelRequest) (hreq : handleChat ack sys messages = some req) :
    (req.history.take 2 = primingHistory ack sys
      ∧ ∀ e ∈ req.history.drop 2, ∃ m ∈ messages, e.parts = [m.content])
    ∧ handleChat ack sys
        [ChatMessage.mk "1" "assistant" sadhanaGreeting,
         ChatMessage.mk "2" "user" "Give me a productivity challenge for today"]
      = some (ModelRequest.mk (primingHistory ack sys)
          "Give me a productivity challenge for today") := by
  constructor
  · cases hlu : lastUserMessage? messages with
    | none =>
        unfold handleChat at hreq
        rw [hlu] at hreq
        exact Option.noConfusion hreq
    | some lu =>
        rw [handleChat_eq_of_lastUser hlu] at hreq
        obtain rfl : req = _ := (Option.some.inj hreq).symm
        constructor
        · rfl
        · show ∀ e ∈ (primingHistory ack sys ++ _).drop 2, _
          by_cases hlen : messages.length > 1
          · simp only [hlen, if_pos, primingHistory, List.cons_append,
              List.nil_append, List.drop_succ_cons, List.drop_zero]
            exact pairEntries_parts_from_messages messages lu.id
          · simp [hlen, primingHistory]
  · rfl

/-- C5 witness: the two-message greeting transcript of the challenge bot. -/
theorem c5_priming_history_witness :
    (handleChatChallenge
        [ChatMessage.mk "1" "assistant" sadhanaGreeting,
         ChatMessage.mk "2" "user" "Give me a productivity challenge for today"]
      = some (ModelRequest.mk
          (primingHistory sadhanaAckText sadhanaSystemPromptText)
          "Give me a productivity challenge for today"))
    ∧ ((ModelRequest.mk (primingHistory sadhanaAckText sadhanaSystemPromptText)
          "Give me a productivity challenge for today").history.take 2
        = primingHistory sadhanaAckText sadhanaSystemPromptText) := by
  constructor
  · rfl
  · exact ((c5_priming_history sadhanaAckText sadhanaSystemPromptText
      [ChatMessage.mk "1" "assistant" sadhanaGreeting,
       ChatMessage.mk "2" "user" "Give me a productivity challenge for today"]
      (ModelRequest.mk (primingHistory sadhanaAckText sadhanaSystemPromptText)
        "Give me a productivity challenge for today") rfl).1).1

theorem pairEntries_segment {messages : List ChatMessage} {lastId : String}
    {u : ChatMessage}
    (hu : u ∈ messages.filter (fun msg => msg.role == "user" && msg.id != lastId))
    (pre : List HistoryEntry) :
    (HistoryEntry.mk "user" [u.content] ::
      (match messages[(messages.findIdx fun m => m.id == u.id) + 1]? with
       | some next =>
           if next.role == "assistant" then [HistoryEntry.mk "model" [next.content]]
           else []
       | none => [])) <:+: pre ++ pairEntries messages lastId := by
  unfold pairEntries
  exact flatMap_segment
    (fun userMsg =>
      let userIndex := messages.findIdx fun m => m.id == userMsg.id
      HistoryEntry.mk "user" [userMsg.content] ::
        (match messages[userIndex + 1]? with
         | some next =>
             if next.role == "assistant" then [HistoryEntry.mk "model" [next.content]]
             else []
         | none => [])) hu pre

/-- Transcript whose only user turn is itself the active query: its user
message is immediately followed by an assistant message, yet the handler
excludes the pair from the history. -/
def c3Transcript : List ChatMessage :=
  [ChatMessage.mk "1" "user" "hi", ChatMessage.mk "2" "assistant" "hello"]

/-- C3 counterexample: in `c3Transcript` the user message at position 0 is
immediately followed by an assistant message at position 1, but the assembled
history is just the two priming entries — it contains no `user`/`model` pair
for those contents, because the user message is the active query and is
filtered out of the history. -/
theorem c3_counterexample :
    handleChatChallenge c3Transcript =
      some (ModelRequest.mk
        (primingHistory sadhanaAckText sadhanaSystemPromptText) "hi")
    ∧ ¬ [HistoryEntry.mk "user" ["hi"], HistoryEntry.mk "model" ["hello"]] <:+:
        primingHistory sadhanaAckText sadhanaSystemPromptText := by
  constructor
  · rfl
  · decide

/-- C3 (amended): for every transcript with unique message ids, whenever a
user message at position `i` is immediately followed by an assistant message
at position `i + 1` and that user message is not the active query (the most
recent user message), the assembled history contains a `user` entry with its
content immediately followed by a `model` entry with the assistant reply's
content. -/
theorem c3_pair_in_history (ack sys : String) (messages : List ChatMessage)
    (i : Nat) (u a lu : ChatMessage) (req : ModelRequest)
    (hnodup : (messages.map ChatMessage.id).Nodup)
    (hu : messages[i]? = some u) (hur : u.role = "user")
    (ha : messages[i + 1]? = some a) (har : a.role = "assistant")
    (hlu : lastUserMessage? messages = some lu) (hne : u.id ≠ lu.id)
    (hreq : handleChat ack sys messages = some req) :
    [HistoryEntry.mk "user" [u.content], HistoryEntry.mk "model" [a.content]] <:+:
      req.history := by
  rw [handleChat_eq_of_lastUser hlu] at hreq
  obtain rfl : req = _ := (Option.some.inj hreq).symm
  have hlen1 : i + 1 < messages.length := (List.getElem?_eq_some.mp ha).1
  have hlen : messages.length > 1 := by omega
  show _ <:+: primingHistory ack sys ++ _
  rw [if_pos hlen]
  have humem : u ∈ messages := by
    obtain ⟨hlt, he⟩ := List.getElem?_eq_some.mp hu
    exact he ▸ List.getElem_mem hlt
  have hufilt : u ∈ messages.filter
      (fun msg => msg.role == "user" && msg.id != lu.id) :=
    List.mem_filter.mpr ⟨humem, by simp [hur, hne]⟩
  have hidx : messages.findIdx (fun m => m.id == u.id) = i :=
    findIdx_by_id messages i u hnodup hu
  have hseg := pairEntries_segment hufilt (primingHistory ack sys)
  have hfu : (HistoryEntry.mk "user" [u.content] ::
      (match messages[(messages.findIdx fun m => m.id == u.id) + 1]? with
       | some next =>
           if next.role == "assistant" then [HistoryEntry.mk "model" [next.content]]
           else []
       | none => [])) =
      [HistoryEntry.mk "user" [u.content], HistoryEntry.mk "model" [a.content]] := by
    rw [hidx, ha]
    simp [har]
  rw [hfu] at hseg
  exact hseg

/-- C3 witness: a three-message transcript where the first user turn is
answered and a newer user turn is the active query; the amended theorem
places the pair in the assembled history. -/
theorem c3_pair_in_history_witness :
    [HistoryEntry.mk "user" ["hi"], HistoryEntry.mk "model" ["hello"]] <:+:
      (ModelRequest.mk
        (primingHistory sadhanaAckText sadhanaSystemPromptText ++
          [HistoryEntry.mk "user" ["hi"], HistoryEntry.mk "model" ["hello"]])
        "next").history :=
  c3_pair_in_history sadhanaAckText sadhanaSystemPromptText
    [ChatMessage.mk "1" "user" "hi", ChatMessage.mk "2" "assistant" "hello",
     ChatMessage.mk "3" "user" "next"] 0
    (ChatMessage.mk "1" "user" "hi") (ChatMessage.mk "2" "assistant" "hello")
    (ChatMessage.mk "3" "user" "next")
    (ModelRequest.mk
      (primingHistory sadhanaAckText sadhanaSystemPromptText ++
        [HistoryEntry.mk "user" ["hi"], HistoryEntry.mk "model" ["hello"]])
      "next")
    (by decide) rfl rfl rfl rfl rfl (by decide) rfl

theorem findIdx_getElem?_found {α : Type} {p : α → Bool} {l : List α}
    (hex : ∃ x ∈ l, p x = true) :
    ∃ v, l[l.findIdx p]? = some v ∧ p v = true := by
  have hlt := List.findIdx_lt_length_of_exists hex
  exact ⟨l[l.findIdx p], List.getElem?_eq_getElem hlt, @List.findIdx_getElem _ _ _ hlt⟩

theorem pairEntriesSrc_not_active {messages : List ChatMessage} {k : Nat}
    {u : ChatMessage} (hk : messages[k]? = some u) (hur : u.role = "user") :
    ∀ p ∈ pairEntriesSrc messages u.id, p.2 ≠ k := by
  intro p hp
  unfold pairEntriesSrc at hp
  rw [List.mem_flatMap] at hp
  obtain ⟨userMsg, hum, hp⟩ := hp
  have hfilt := List.mem_filter.mp hum
  have humem : userMsg ∈ messages := hfilt.1
  have hne : userMsg.id ≠ u.id := by
    have hpred := hfilt.2
    simp only [Bool.and_eq_true, bne_iff_ne] at hpred
    exact hpred.2
  have hex : ∃ x ∈ messages, (x.id == userMsg.id) = true :=
    ⟨userMsg, humem, by simp⟩
  obtain ⟨v, hv, hpv⟩ := findIdx_getElem?_found hex
  rcases List.mem_cons.mp hp with h1 | h2
  · intro hpk
    rw [h1] at hpk
    simp only at hpk
    rw [hpk] at hv
    rw [hk] at hv
    have hvu : v = u := (Option.some.inj hv).symm
    rw [hvu] at hpv
    exact hne (beq_iff_eq.mp hpv).symm
  · cases hg : messages[(messages.findIdx fun m => m.id == userMsg.id) + 1]? with
    | none => rw [hg] at h2; simp at h2
    | some next =>
        rw [hg] at h2
        by_cases hr : (next.role == "assistant") = true
        · have hpe : p = (HistoryEntry.mk "model" [next.content],
              (messages.findIdx fun m => m.id == userMsg.id) + 1) := by
            simpa [hr] using h2
          intro hpk
          rw [hpe] at hpk
          simp only at hpk
          rw [hpk] at hg
          rw [hk] at hg
          have hnu : next = u := (Option.some.inj hg).symm
          rw [hnu, hur] at hr
          exact absurd (beq_iff_eq.mp hr) (by decide)
        · simp [hr] at h2

/-- C4: for every transcript with unique ids containing at least one
user-role message, the content passed to `chat.sendMessageStream` is that of
the most recent user-role message (the active query), the first two history
entries are the synthetic priming turns, and every remaining history entry
carries a source index (via the provenance-tagged `pairEntriesSrc`) different
from the active query's position: the active query reaches the model only via
the send call, never via the history list. -/
theorem c4_active_query_only_sent (ack sys : String) (messages : List ChatMessage)
    (hnodup : (messages.map ChatMessage.id).Nodup)
    (hex : ∃ m ∈ messages, m.role = "user") :
    ∃ req pre u suf,
      handleChat ack sys messages = some req
      ∧ messages = pre ++ u :: suf
      ∧ u.role = "user"
      ∧ (∀ m ∈ suf, m.role ≠ "user")
      ∧ req.sendText = u.content
      ∧ req.history.take 2 = primingHistory ack sys
      ∧ req.history.drop 2 = (pairEntriesSrc messages u.id).map Prod.fst
      ∧ (∀ p ∈ pairEntriesSrc messages u.id, p.2 ≠ pre.length) := by
  obtain ⟨u, hlu⟩ := lastUserMessage?_isSome hex
  obtain ⟨pre, suf, hsplit, hur, hsuf⟩ := lastUserMessage?_decomp hlu
  refine ⟨_, pre, u, suf, handleChat_eq_of_lastUser hlu, hsplit, hur, hsuf,
    rfl, rfl, ?_, ?_⟩
  · show (if messages.length > 1 then pairEntries messages u.id else []) = _
    by_cases hlen : messages.length > 1
    · rw [if_pos hlen, pairEntries_eq_src]
    · rw [if_neg hlen]
      have hms : messages = [u] := by
        have hlen' := congrArg List.length hsplit
        simp only [List.length_append, List.length_cons] at hlen'
        have hpre : pre.length = 0 := by omega
        have hsu : suf.length = 0 := by omega
        rw [List.length_eq_zero] at hpre hsu
        rw [hsplit, hpre, hsu]
        rfl
      rw [hms]
      simp [pairEntriesSrc]
  · have hk : messages[pre.length]? = some u := by
      rw [hsplit, List.getElem?_append_right (Nat.le_refl pre.length)]
      simp
    exact pairEntriesSrc_not_active hk hur

/-- C4 witness: in a three-message transcript whose newest user message is
the active query, the send text is the active query's content and no pair
entry is derived from its position. -/
theorem c4_active_query_only_sent_witness :
    ∃ req pre u suf,
      handleChatChallenge
          [ChatMessage.mk "1" "user" "hi", ChatMessage.mk "2" "assistant" "hello",
           ChatMessage.mk "3" "user" "next"] = some req
      ∧ [ChatMessage.mk "1" "user" "hi", ChatMessage.mk "2" "assistant" "hello",
         ChatMessage.mk "3" "user" "next"] = pre ++ u :: suf
      ∧ u.role = "user"
      ∧ (∀ m ∈ suf, m.role ≠ "user")
      ∧ req.sendText = u.content
      ∧ req.history.take 2 = primingHistory sadhanaAckText sadhanaSystemPromptText
      ∧ req.history.drop 2 =
          (pairEntriesSrc
            [ChatMessage.mk "1" "user" "hi", ChatMessage.mk "2" "assistant" "hello",
             ChatMessage.mk "3" "user" "next"] u.id).map Prod.fst
      ∧ (∀ p ∈ pairEntriesSrc
            [ChatMessage.mk "1" "user" "hi", ChatMessage.mk "2" "assistant" "hello",
             ChatMessage.mk "3" "user" "next"] u.id, p.2 ≠ pre.length) :=
  c4_active_query_only_sent sadhanaAckText sadhanaSystemPromptText
    [ChatMessage.mk "1" "user" "hi", ChatMessage.mk "2" "assistant" "hello",
     ChatMessage.mk "3" "user" "next"] (by decide) (by decide)

/-- The relay loop inside the route's `ReadableStream`: each upstream chunk's
text is enqueued iff it is truthy (a JavaScript string is falsy exactly when
empty); encoding is modelled as the identity on text. -/
def relayLoop : List String → List String
  | [] => []
  | chunk :: rest => if chunk = "" then relayLoop rest else chunk :: relayLoop rest

/-- The client read loop (`sendMessage` in `page.tsx`): starting from the
accumulated `responseText` `acc`, the successive content values written to
the in-progress assistant message, one per received chunk. -/
def clientRenderLoop (acc : String) : List String → List String
  | [] => []
  | chunk :: rest => (acc ++ chunk) :: clientRenderLoop (acc ++ chunk) rest

/-- Every content value the client renders for the assistant message: the
initially empty message followed by the value after each chunk. -/
def clientRenders (chunks : List String) : List String :=
  "" :: clientRenderLoop "" chunks

/-- The assistant message content once the stream is done: the final
accumulated `responseText`. -/
def clientFinal (chunks : List String) : String :=
  chunks.foldl (fun acc chunk => acc ++ chunk) ""

/-- Concatenation of a fragment sequence in arrival order. -/
def concatAll : List String → String
  | [] => ""
  | c :: cs => c ++ concatAll cs

theorem foldl_append_eq_concatAll :
    ∀ (chunks : List String) (acc : String),
      chunks.foldl (fun a c => a ++ c) acc = acc ++ concatAll chunks := by
  intro chunks
  induction chunks with
  | nil => intro acc; simp [concatAll, String.append_empty]
  | cons c cs ih =>
      intro acc
      simp only [List.foldl_cons, concatAll]
      rw [ih (acc ++ c), String.append_assoc]

theorem concatAll_relayLoop (fragments : List String) :
    concatAll (relayLoop fragments) = concatAll fragments := by
  induction fragments with
  | nil => rfl
  | cons c cs ih =>
      by_cases h : c = ""
      · simp [relayLoop, h, concatAll, ih, String.empty_append]
      · simp [relayLoop, h, concatAll, ih]

theorem clientRenderLoop_prefix_of_final :
    ∀ (chunks : List String) (acc : String),
      acc.data <+: (chunks.foldl (fun a c => a ++ c) acc).data ∧
      ∀ r ∈ clientRenderLoop acc chunks,
        r.data <+: (chunks.foldl (fun a c => a ++ c) acc).data := by
  intro chunks
  induction chunks with
  | nil =>
      intro acc
      exact ⟨List.prefix_rfl, by intro r hr; simp [clientRenderLoop] at hr⟩
  | cons c cs ih =>
      intro acc
      have hstep : acc.data <+: (acc ++ c).data := by
        rw [String.data_append]
        exact List.prefix_append acc.data c.data
      constructor
      · exact hstep.trans (ih (acc ++ c)).1
      · intro r hr
        rcases List.mem_cons.mp hr with h1 | h2
        · rw [h1]
          exact (ih (acc ++ c)).1
        · exact (ih (acc ++ c)).2 r h2

theorem clientRenderLoop_chain :
    ∀ (chunks : List String) (acc : String),
      List.Chain' (fun a b : String => a.length ≤ b.length)
        (acc :: clientRenderLoop acc chunks) := by
  intro chunks
  induction chunks with
  | nil => intro acc; exact List.chain'_singleton acc
  | cons c cs ih =>
      intro acc
      refine List.Chain'.cons ?_ (ih (acc ++ c))
      rw [String.length_append]
      omega

/-- C2: for every finite sequence of upstream text fragments relayed by the
server stream and read by the client loop, the final assistant message
content equals the concatenation of all fragments in arrival order, every
intermediate rendered content value is a prefix of the final content, and the
successive renders are monotonically non-decreasing in length. -/
theorem c2_stream_reassembly (fragments : List String) :
    clientFinal (relayLoop fragments) = concatAll fragments
    ∧ (∀ r ∈ clientRenders (relayLoop fragments),
        r.data <+: (clientFinal (relayLoop fragments)).data)
    ∧ List.Chain' (fun a b : String => a.length ≤ b.length)
        (clientRenders (relayLoop fragments)) := by
  refine ⟨?_, ?_, ?_⟩
  · rw [clientFinal, foldl_append_eq_concatAll, String.empty_append]
    exact concatAll_relayLoop fragments
  · intro r hr
    rcases List.mem_cons.mp hr with h1 | h2
    · rw [h1]
      exact (clientRenderLoop_prefix_of_final (relayLoop fragments) "").1
    · exact (clientRenderLoop_prefix_of_final (relayLoop fragments) "").2 r h2
  · exact clientRenderLoop_chain (relayLoop fragments) ""

/-- C10: an empty upstream fragment is never enqueued: the relayed stream is
exactly the subsequence of non-empty fragments in arrival order, and dropping
the empty fragments does not change the concatenated content. -/
theorem c10_empty_fragments_dropped (fragments : List String) :
    (∀ c ∈ relayLoop fragments, c ≠ "")
    ∧ relayLoop fragments = fragments.filter (fun t => t ≠ "")
    ∧ concatAll (relayLoop fragments) = concatAll fragments := by
  refine ⟨?_, ?_, concatAll_relayLoop fragments⟩
  · intro c hc
    induction fragments with
    | nil => simp [relayLoop] at hc
    | cons x xs ih =>
        by_cases h : x = ""
        · rw [relayLoop, if_pos h] at hc
          exact ih hc
        · rw [relayLoop, if_neg h] at hc
          rcases List.mem_cons.mp hc with h1 | h2
          · rw [h1]; exact h
          · exact ih h2
  · induction fragments with
    | nil => rfl
    | cons x xs ih =>
        by_cases h : x = ""
        · rw [relayLoop, if_pos h, List.filter_cons]
          simp [h, ih]
        · rw [relayLoop, if_neg h, List.filter_cons]
          simp [h, ih]

/-- Client-side state of the transcript controller (`page.tsx`). -/
structure ClientState where
  messages : List ChatMessage
  input : String
  isLoading : Bool
  error : Option String
  retryTimer : Option Nat
deriving DecidableEq

/-- Model of JavaScript `String.prototype.trim` at the character level:
whitespace is removed from both ends. -/
def jsTrim (s : String) : String :=
  String.mk (((s.data.dropWhile Char.isWhitespace).reverse.dropWhile
    Char.isWhitespace).reverse)

/-- The submission phase of `sendMessage`: a blank (trims to empty) input or
an in-flight request returns immediately; otherwise the user message is
appended, the input cleared, the loading flag set, the error cleared, and the
updated transcript is issued as the network request body (`some body`;
`none` means no network call). -/
def sendMessagePhase1 (st : ClientState) (messageContent : String)
    (newId : String) : ClientState × Option (List ChatMessage) :=
  if jsTrim messageContent = "" ∨ st.isLoading = true then (st, none)
  else
    let userMessage := ChatMessage.mk newId "user" messageContent
    (ClientState.mk (st.messages ++ [userMessage]) "" true none st.retryTimer,
      some (st.messages ++ [userMessage]))

theorem jsTrim_whitespace_only {s : String}
    (h : ∀ c ∈ s.data, c.isWhitespace = true) : jsTrim s = "" := by
  unfold jsTrim
  have h1 : s.data.dropWhile Char.isWhitespace = [] :=
    List.dropWhile_eq_nil_iff.mpr h
  rw [h1]
  rfl

/-- C9: submitting input that is empty or consists only of whitespace, or
submitting anything while a request is in flight, is a no-op: the state
(transcript, input field, flags) is unchanged and no network request is
produced.  The empty input is the vacuous case of the whitespace condition. -/
theorem c9_blank_or_loading_noop (st : ClientState) (messageContent newId : String)
    (h : (∀ c ∈ messageContent.data, c.isWhitespace = true) ∨ st.isLoading = true) :
    sendMessagePhase1 st messageContent newId = (st, none) := by
  unfold sendMessagePhase1
  rcases h with hws | hload
  · rw [if_pos (Or.inl (jsTrim_whitespace_only hws))]
  · rw [if_pos (Or.inr hload)]

/-- C9 witness: whitespace-only input on an idle state, and arbitrary input
on a loading state, are both no-ops. -/
theorem c9_blank_or_loading_noop_witness :
    sendMessagePhase1 (ClientState.mk [] "" false none none) "  " "id1"
      = (ClientState.mk [] "" false none none, none)
    ∧ sendMessagePhase1 (ClientState.mk [] "draft" true none none) "hello" "id2"
      = (ClientState.mk [] "draft" true none none, none) :=
  ⟨c9_blank_or_loading_noop (ClientState.mk [] "" false none none) "  " "id1"
      (Or.inl (by decide)),
    c9_blank_or_loading_noop (ClientState.mk [] "draft" true none none) "hello" "id2"
      (Or.inr rfl)⟩

/-- An error thrown by the upstream API call, as inspected by the catch
branch: an optional numeric `status` and an optional `message` string
(`none` models an absent field). -/
structure UpstreamError where
  status : Option Nat
  message : Option String
deriving DecidableEq

/-- A structured JSON error response produced by the catch branch. -/
structure ErrorResponse where
  status : Nat
  contentType : String
  retryAfterHeader : Option String
  bodyError : String
  bodyMessage : Option String
  bodyRetryAfter : Option Nat
deriving DecidableEq

/-- The response of the `POST` handler: a 200 text/plain stream of chunks, or
a structured JSON error. -/
inductive PostResponse where
  | stream (chunks : List String)
  | errorResp (r : ErrorResponse)
deriving DecidableEq

/-- The literal part of the regex `retryDelay":"(\d+)s`. -/
def retryDelayLit : List Char := "retryDelay\":\"".data

/-- `parseInt(digits, 10)` on a non-empty digit run. -/
def digitsToNat (ds : List Char) : Nat :=
  ds.foldl (fun acc c => acc * 10 + (c.toNat - 48)) 0

/-- One attempt of the regex `retryDelay":"(\d+)s` at the current position:
the literal, then a maximal non-empty digit run, then the letter s (greedy
`\d+` followed by a non-digit literal never backtracks usefully). -/
def matchRetryAt (cs : List Char) : Option Nat :=
  if retryDelayLit.isPrefixOf cs then
    let rest := cs.drop retryDelayLit.length
    let ds := rest.takeWhile Char.isDigit
    if ds.isEmpty then none
    else
      match rest.dropWhile Char.isDigit with
      | 's' :: _ => some (digitsToNat ds)
      | _ => none
  else none

/-- Left-to-right regex scan: the first position where a match succeeds. -/
def scanRetryDelay : List Char → Option Nat
  | [] => none
  | c :: cs =>
      match matchRetryAt (c :: cs) with
      | some n => some n
      | none => scanRetryDelay cs

/-- `error.message.match(/retryDelay":"(\d+)s/)` followed by `parseInt` of
the captured digits; `none` when the message has no match. -/
def parseRetryDelay (m : String) : Option Nat := scanRetryDelay m.data

/-- The user-facing rate-limit body message template. -/
def rateLimitMessage (retrySeconds : Nat) : String :=
  "Google AI API rate limit reached. Please try again in " ++
    toString retrySeconds ++
    " seconds. The free tier of Gemini API has strict rate limits."

/-- The catch branch of the `POST` handler: a 429 status or a message
containing "429" yields a structured 429 with the parsed retry delay
(default 60, also when the message is absent and reading it throws);
anything else yields a generic 500 whose body carries the error message when
it is truthy. -/
def handleError (error : UpstreamError) : ErrorResponse :=
  if ((error.status == some 429) ||
      (match error.message with
       | some m => jsIncludes m "429"
       | none => false)) = true then
    let retrySeconds : Nat :=
      match error.message with
      | some m => (parseRetryDelay m).getD 60
      | none => 60
    ErrorResponse.mk 429 "application/json" (some (toString retrySeconds))
      "Rate limit exceeded" (some (rateLimitMessage retrySeconds))
      (some retrySeconds)
  else
    ErrorResponse.mk 500 "application/json" none
      (match error.message with
       | some m => if m = "" then "Failed to process chat request" else m
       | none => "Failed to process chat request")
      none none

/-- The whole `POST` handler: a missing user message throws and is caught as
a generic error; otherwise the upstream call either fails (caught by the
catch branch) or yields the fragment sequence relayed as a 200 stream. -/
def POST (ack sys : String) (messages : List ChatMessage)
    (upstream : Except UpstreamError (List String)) : PostResponse :=
  match handleChat ack sys messages with
  | none =>
      PostResponse.errorResp
        (handleError (UpstreamError.mk none (some "No user message found")))
  | some _ =>
      match upstream with
      | Except.error e => PostResponse.errorResp (handleError e)
      | Except.ok fragments => PostResponse.stream (relayLoop fragments)

/-- The challenge-bot instance of the `POST` handler. -/
def POSTChallenge :
    List ChatMessage → Except UpstreamError (List String) → PostResponse :=
  POST sadhanaAckText sadhanaSystemPromptText

example : parseRetryDelay "x retryDelay\":\"17s y" = some 17 := by decide
example : parseRetryDelay "retryDelay\":\"s" = none := by decide
example : parseRetryDelay "" = none := by decide

/-- An upstream error whose message contains `retryDelay":"17s` but carries
neither a 429 status nor "429" in its message. -/
def c6ErrNoMarker : UpstreamError :=
  UpstreamError.mk none (some "retryDelay\":\"17s")

/-- A 429 upstream error whose message contains `retryDelay":"17s`, but whose
first `retryDelay":"<N>s` match is `5s`. -/
def c6ErrTwoMatches : UpstreamError :=
  UpstreamError.mk (some 429) (some "code 429: retryDelay\":\"5s, retryDelay\":\"17s")

/-- C6 counterexample: containing the substring `retryDelay":"17s` is not
sufficient for a 429/17 response.  Without a 429 marker the handler answers
500, and with an earlier `retryDelay":"5s` match the handler answers with
retry delay 5, because the regex takes the first match. -/
theorem c6_counterexample :
    (jsIncludes "retryDelay\":\"17s" "retryDelay\":\"17s" = true
      ∧ POSTChallenge [ChatMessage.mk "1" "user" "hi"] (Except.error c6ErrNoMarker)
          = PostResponse.errorResp (handleError c6ErrNoMarker)
      ∧ (handleError c6ErrNoMarker).status = 500)
    ∧ (jsIncludes "code 429: retryDelay\":\"5s, retryDelay\":\"17s"
          "retryDelay\":\"17s" = true
      ∧ POSTChallenge [ChatMessage.mk "1" "user" "hi"] (Except.error c6ErrTwoMatches)
          = PostResponse.errorResp (handleError c6ErrTwoMatches)
      ∧ (handleError c6ErrTwoMatches).bodyRetryAfter = some 5
      ∧ (handleError c6ErrTwoMatches).retryAfterHeader = some "5") := by
  exact ⟨⟨by decide, rfl, by decide⟩, ⟨by decide, rfl, by decide, by decide⟩⟩

/-- C6 (amended): for every transcript containing a user message and every
upstream error that carries a 429 status or whose message contains "429", if
the first `retryDelay":"<N>s` match in the message parses to 17 (in
particular when `retryDelay":"17s` is the only such pattern), the handler
returns status 429, a JSON body with `retryAfter = 17`, and a `Retry-After`
header of "17". -/
theorem c6_rate_limit_17 (ack sys : String) (messages : List ChatMessage)
    (e : UpstreamError) (m : String)
    (hmsg : ∃ mm ∈ messages, mm.role = "user")
    (hm : e.message = some m)
    (h429 : e.status = some 429 ∨ jsIncludes m "429" = true)
    (hparse : parseRetryDelay m = some 17) :
    POST ack sys messages (Except.error e) =
      PostResponse.errorResp (ErrorResponse.mk 429 "application/json" (some "17")
        "Rate limit exceeded" (some (rateLimitMessage 17)) (some 17)) := by
  obtain ⟨u, hlu⟩ := lastUserMessage?_isSome hmsg
  unfold POST
  rw [handleChat_eq_of_lastUser hlu]
  show PostResponse.errorResp (handleError e) = _
  congr 1
  unfold handleError
  have hcond : ((e.status == some 429) ||
      (match e.message with
       | some mm => jsIncludes mm "429"
       | none => false)) = true := by
    rcases h429 with h | h
    · simp [h]
    · rw [hm]
      simp [h]
  rw [if_pos hcond, hm]
  simp [hparse]
  rfl

/-- C6 witness: a 429-status error whose message's only pattern is
`retryDelay":"17s`. -/
theorem c6_rate_limit_17_witness :
    POSTChallenge [ChatMessage.mk "1" "user" "hi"]
        (Except.error (UpstreamError.mk (some 429) (some "retryDelay\":\"17s")))
      = PostResponse.errorResp (ErrorResponse.mk 429 "application/json" (some "17")
          "Rate limit exceeded" (some (rateLimitMessage 17)) (some 17)) :=
  c6_rate_limit_17 sadhanaAckText sadhanaSystemPromptText
    [ChatMessage.mk "1" "user" "hi"]
    (UpstreamError.mk (some 429) (some "retryDelay\":\"17s"))
    "retryDelay\":\"17s"
    ⟨ChatMessage.mk "1" "user" "hi", by decide⟩ rfl (Or.inl rfl) (by decide)

/-- C7: for every transcript containing a user message and every upstream
error carrying a 429 status whose message has no parsable
`retryDelay":"<N>s` pattern — including an absent message — the handler
returns a 429 whose `retryAfter` field and `Retry-After` header both carry
the default of 60. -/
theorem c7_rate_limit_default_60 (ack sys : String) (messages : List ChatMessage)
    (e : UpstreamError)
    (hmsg : ∃ mm ∈ messages, mm.role = "user")
    (h429 : e.status = some 429)
    (hnoparse : ∀ m, e.message = some m → parseRetryDelay m = none) :
    POST ack sys messages (Except.error e) =
      PostResponse.errorResp (ErrorResponse.mk 429 "application/json" (some "60")
        "Rate limit exceeded" (some (rateLimitMessage 60)) (some 60)) := by
  obtain ⟨u, hlu⟩ := lastUserMessage?_isSome hmsg
  unfold POST
  rw [handleChat_eq_of_lastUser hlu]
  show PostResponse.errorResp (handleError e) = _
  congr 1
  unfold handleError
  have hcond : ((e.status == some 429) ||
      (match e.message with
       | some mm => jsIncludes mm "429"
       | none => false)) = true := by
    simp [h429]
  rw [if_pos hcond]
  cases hme : e.message with
  | none => rfl
  | some m =>
      simp [hnoparse m hme]
      rfl

/-- C7 witness: a 429-status error with no message at all. -/
theorem c7_rate_limit_default_60_witness :
    POSTChallenge [ChatMessage.mk "1" "user" "hi"]
        (Except.error (UpstreamError.mk (some 429) none))
      = PostResponse.errorResp (ErrorResponse.mk 429 "application/json" (some "60")
          "Rate limit exceeded" (some (rateLimitMessage 60)) (some 60)) :=
  c7_rate_limit_default_60 sadhanaAckText sadhanaSystemPromptText
    [ChatMessage.mk "1" "user" "hi"]
    (UpstreamError.mk (some 429) none)
    ⟨ChatMessage.mk "1" "user" "hi", by decide⟩ rfl (by intro m hm; cases hm)

/-- C8: for every request whose transcript has no user-role message, the
handler raises the no-user-message error internally and answers with a
structured 500 JSON body carrying that message — never an unhandled fault
and never a 200 stream, whatever the upstream would have produced. -/
theorem c8_no_user_message_500 (ack sys : String) (messages : List ChatMessage)
    (upstream : Except UpstreamError (List String))
    (h : ∀ m ∈ messages, m.role ≠ "user") :
    POST ack sys messages upstream =
      PostResponse.errorResp (ErrorResponse.mk 500 "application/json" none
        "No user message found" none none) := by
  have hnone : lastUserMessage? messages = none := by
    unfold lastUserMessage?
    have hidx : messages.reverse.findIdx? (fun msg => msg.role == "user") = none := by
      rw [List.findIdx?_eq_none_iff]
      intro x hx
      have hxr := h x (List.mem_reverse.mp hx)
      simp [hxr]
    rw [hidx]
  unfold POST handleChat
  rw [hnone]
  show PostResponse.errorResp
      (handleError (UpstreamError.mk none (some "No user message found"))) = _
  congr 1

/-- C8 witness: the spec's scenario — a transcript holding only the initial
assistant greeting. -/
theorem c8_no_user_message_500_witness :
    POSTChallenge [ChatMessage.mk "1" "assistant" "hi"] (Except.ok ["ignored"])
      = PostResponse.errorResp (ErrorResponse.mk 500 "application/json" none
          "No user message found" none none) :=
  c8_no_user_message_500 sadhanaAckText sadhanaSystemPromptText
    [ChatMessage.mk "1" "assistant" "hi"] (Except.ok ["ignored"]) (by decide)
